import Mathlib

/-!
Verification of the `futures` GDB pretty-printer module
(`shared/gdb/futures_printers.py`) against its natural-language
specification.

The Python source is shallowly embedded below.  Strings are modelled as
`List Char` (Python text), Python integers as `Int`, the GDB host API
(`gdb.lookup_type`, values, addresses) as an explicit environment record
and small inductive data types.  Python exceptions (`assert`,
`AttributeError` on a failed regex match, `ValueError` on list unpacking,
`gdb.error` from `gdb.lookup_type`) are modelled with `Except` / `Option`.
Regular expressions used by the source are fixed patterns, so their
(greedy, backtracking) semantics are embedded directly as functions on
character lists; the embedding assumes single-line type texts (Python's
`.` does not match a newline, and type names never contain one).
-/

namespace FuturesPrinters

/-! ### Python string helpers: `str.strip` / `lstrip` / `rstrip` -/

/-- Python whitespace, as recognised by `str.strip()` with no argument
(the ASCII subset; C++ type texts contain no exotic Unicode
whitespace). -/
def isPySpace (c : Char) : Bool :=
  c = ' ' || c = '\t' || c = '\n' || c = '\x0d' || c = '\x0b' || c = '\x0c'

/-- `str.lstrip()` -/
def pyLStrip (cs : List Char) : List Char := cs.dropWhile isPySpace

/-- `str.rstrip()` -/
def pyRStrip (cs : List Char) : List Char := (cs.reverse.dropWhile isPySpace).reverse

/-- `str.strip()` -/
def pyStrip (cs : List Char) : List Char := pyLStrip (pyRStrip cs)

/-! ### `split_parameter_pack` (source lines 37-53)

The Python loop keeps indices `b`, `e` and a counter `unmatched`.  On a
comma with `unmatched == 0` it yields the current (stripped) slice and
sets `b = e = e + 1`; the trailing `e += 1` of the loop body then moves
`e` to `e + 2`, so the character immediately after a separator comma is
*included in the next slice but never inspected*.  The accumulator `cur`
below holds the current slice in reverse; the nested `match` reproduces
the skipped character. -/

def split_parameter_packAux : List Char → Int → List Char → List (List Char)
  | [], _, cur => [pyStrip cur.reverse]
  | c :: rest, u, cur =>
    if c = ',' ∧ u = 0 then
      pyStrip cur.reverse ::
        (match rest with
         | [] => [pyStrip []]
         | x :: rest2 => split_parameter_packAux rest2 u [x])
    else if c = '<' then split_parameter_packAux rest (u + 1) (c :: cur)
    else if c = '>' then split_parameter_packAux rest (u - 1) (c :: cur)
    else split_parameter_packAux rest u (c :: cur)

/-- `split_parameter_pack(typename)`, the list of all yielded elements.
The generator is total: no code path raises. -/
def split_parameter_pack (cs : List Char) : List (List Char) :=
  split_parameter_packAux cs 0 []

/-- Modelled from the spec: `splitGenericArgs` scans left to right,
tracking a nesting counter incremented on `<` and decremented on `>`;
a `,` is a separator exactly when the counter is `0`; every character is
inspected; arguments are trimmed of surrounding whitespace. -/
def splitGenericArgsSpecAux : List Char → Int → List Char → List (List Char)
  | [], _, cur => [pyStrip cur.reverse]
  | c :: rest, d, cur =>
    if c = ',' ∧ d = 0 then
      pyStrip cur.reverse :: splitGenericArgsSpecAux rest d []
    else if c = '<' then splitGenericArgsSpecAux rest (d + 1) (c :: cur)
    else if c = '>' then splitGenericArgsSpecAux rest (d - 1) (c :: cur)
    else splitGenericArgsSpecAux rest d (c :: cur)

/-- Modelled from the spec: depth-0 splitting with trimming. -/
def splitGenericArgsSpec (cs : List Char) : List (List Char) :=
  splitGenericArgsSpecAux cs 0 []

/-- `cs` has no comma immediately followed by `<`, `>` or `,`.  On such
inputs the source's skipped-character quirk is invisible. -/
def noSkipHazard : List Char → Bool
  | [] => true
  | [_] => true
  | a :: b :: rest =>
    (if a = ',' then !(b == '<' || b == '>' || b == ',') else true)
      && noSkipHazard (b :: rest)

/-! ### `strip_qualifiers` (source lines 55-77)

Two `while True` loops: first repeatedly `rstrip` and remove the first
matching trailing token among `['&', '*', 'const', 'volatile']`, then
repeatedly `lstrip` and remove the first matching leading token among
`['const', 'volatile']`; each removal is recorded in `qps` in encounter
order, and the function returns `(remaining, qps[::-1])`.  Each loop
iteration removes at least one character, so `length + 1` units of fuel
can never run out; the fuel-0 branch is unreachable. -/

def qualTokens : List (List Char) := [['&'], ['*'], "const".data, "volatile".data]

def leadQualTokens : List (List Char) := ["const".data, "volatile".data]

/-- `next(q for q in ['&', '*', 'const', 'volatile'] if typename.endswith(q))` -/
def trailingQual (cs : List Char) : Option (List Char) :=
  qualTokens.find? (fun q => q.isSuffixOf cs)

/-- `next(q for q in ['const', 'volatile'] if typename.startswith(q))` -/
def leadingQual (cs : List Char) : Option (List Char) :=
  leadQualTokens.find? (fun q => q.isPrefixOf cs)

/-- `typename[:-len(qual)]` -/
def removeTrail (cs q : List Char) : List Char := cs.take (cs.length - q.length)

/-- `typename[len(qual):]` -/
def removeLead (cs q : List Char) : List Char := cs.drop q.length

def stripTrailLoop : Nat → List Char → List Char × List (List Char)
  | 0, cs => (cs, [])
  | fuel + 1, cs =>
    match trailingQual (pyRStrip cs) with
    | none => (pyRStrip cs, [])
    | some q =>
      match stripTrailLoop fuel (removeTrail (pyRStrip cs) q) with
      | (b, qs) => (b, q :: qs)

def stripLeadLoop : Nat → List Char → List Char × List (List Char)
  | 0, cs => (cs, [])
  | fuel + 1, cs =>
    match leadingQual (pyLStrip cs) with
    | none => (pyLStrip cs, [])
    | some q =>
      match stripLeadLoop fuel (removeLead (pyLStrip cs) q) with
      | (b, qs) => (b, q :: qs)

/-- `strip_qualifiers(typename)`: base text and `qps[::-1]`. -/
def strip_qualifiers (cs : List Char) : List Char × List (List Char) :=
  match stripTrailLoop (cs.length + 1) cs with
  | (t, qps1) =>
    match stripLeadLoop (t.length + 1) t with
    | (b, qps2) => (b, (qps1 ++ qps2).reverse)

/-! ### `gdb.Type` and `apply_qualifiers` (source lines 79-94) -/

/-- A host (GDB) type handle: a looked-up tagged base type, possibly
wrapped by `.pointer()`, `.reference()` or `.const()`. -/
inductive GdbType where
  | base (tag : String)
  | pointer (t : GdbType)
  | reference (t : GdbType)
  | constQ (t : GdbType)
deriving DecidableEq

/-- `str(t)` of a type handle, as GDB renders it. -/
def GdbType.typeStr : GdbType → String
  | .base tag => tag
  | .pointer t => t.typeStr ++ " *"
  | .reference t => t.typeStr ++ " &"
  | .constQ t => "const " ++ t.typeStr

/-- `apply_qualifiers(t, qs)`: the source's loop applies `t.pointer()`
for `'*'`, `t.reference()` for `'&'` and — despite its own doc string
saying const/volatile are not applied — `t.const()` for `'const'`;
any other token (including `'volatile'`) is ignored. -/
def apply_qualifiers (t : GdbType) (qs : List (List Char)) : GdbType :=
  qs.foldl
    (fun t q =>
      if q = ['*'] then GdbType.pointer t
      else if q = ['&'] then GdbType.reference t
      else if q = "const".data then GdbType.constQ t
      else t)
    t

/-! ### Host model: values, environment, errors

A `future_state` value, as the printers see it: `underlying_typename`
(the resolved declared type text), the `type_id_` discriminant field and
the address of the raw `data_.data_` storage. -/

structure FSValue where
  typeText : String
  typeId : Int
  dataAddr : Nat
deriving DecidableEq

/-- The host debugger services the printers use: `gdb.lookup_type`,
returning `none` when GDB raises `gdb.error` (type not found). -/
structure GdbEnv where
  lookupType : String → Option GdbType

/-- Python exceptions that can escape the printer methods. -/
inductive PrinterError where
  | assertionFailed (msg : String)
  | regexMismatch
  | unpackMismatch
  | typeResolution (name : String)
deriving DecidableEq

/-! ### `FutureStatePrinter` (source lines 142-194) -/

def fsPre : List Char := "futures::detail::future_state<".data

/-- Group 1 of `^futures::detail::future_state<(.*)>$` (greedy): the text
between the literal head and a final `>`; `none` when the pattern does
not match. -/
def regexFutureStateGroup1 (cs : List Char) : Option (List Char) :=
  if fsPre.isPrefixOf cs then
    match (cs.drop fsPre.length).getLast? with
    | some c =>
      if c = '>' then some (cs.drop fsPre.length).dropLast else none
    | none => none
  else none

/-- Source lines 182-192: `stored_type_name` starts as `''` and is set
only for discriminants 0-4. -/
def storedTypeName (v : String) (ti : Int) : String :=
  if ti = 0 then v ++ "::empty_t"
  else if ti = 1 then v ++ "::operation_storage_t"
  else if ti = 2 then v ++ "::shared_storage_t"
  else if ti = 3 then v ++ "::operation_state_t"
  else if ti = 4 then v ++ "::shared_state_t"
  else ""

/-- Source lines 168-192 up to (not including) `gdb.lookup_type`:
the assert on a negative discriminant, the regex match, the
`[R, OpState] = list(split_parameter_pack(...))` unpacking (a
`ValueError` unless exactly two elements), then the textual composition
of the stored type name. -/
def resolveConcreteTypeName (v : FSValue) : Except PrinterError String :=
  if v.typeId < 0 then .error (.assertionFailed "Heap backup is not supported")
  else
    match regexFutureStateGroup1 v.typeText.data with
    | none => .error .regexMismatch
    | some g1 =>
      if (split_parameter_pack g1).length = 2 then
        .ok (storedTypeName v.typeText v.typeId)
      else .error .unpackMismatch

/-- `FutureStatePrinter.get_variant_type` (source lines 168-194):
compose the stored type name, then `gdb.lookup_type` it. -/
def get_variant_type (env : GdbEnv) (v : FSValue) : Except PrinterError GdbType :=
  match resolveConcreteTypeName v with
  | .error e => .error e
  | .ok n =>
    match env.lookupType n with
    | some t => .ok t
    | none => .error (.typeResolution n)

/-- A child value yielded by a printer's `children()`. -/
inductive ChildValue where
  | storedView (addr : Nat) (t : GdbType)
  | rawInt (i : Int)
  | address (a : Nat)
  | boolVal (b : Bool)
  | fieldVal (v : Int)
deriving DecidableEq

/-- `reinterpret_cast(value, t)` (source lines 93-94):
`value.address.cast(t.pointer()).dereference()` — a non-copying typed
view of the same storage. -/
def reinterpret_cast (addr : Nat) (t : GdbType) : ChildValue :=
  .storedView addr t

/-- The last occurrence of `::` in `cs`: `some rest` with `rest` the text
after it (Python `r[r.rfind('::') + 2:]`), or `none` when absent. -/
def dropUpToLastSep : List Char → Option (List Char)
  | [] => none
  | c :: rest =>
    match dropUpToLastSep rest with
    | some r => some r
    | none =>
      match c, rest with
      | ':', ':' :: rest2 => some rest2
      | _, _ => none

/-- Source lines 159-162: `r = str(resolved_type)`, trimmed to the text
after its last `::` when one occurs. -/
def childName (r : String) : String :=
  match dropUpToLastSep r.data with
  | some rest => ⟨rest⟩
  | none => r

/-- `FutureStatePrinter.children` (source lines 156-166). -/
def fs_children (env : GdbEnv) (v : FSValue) :
    Except PrinterError (List (String × ChildValue)) :=
  match get_variant_type env v with
  | .error e => .error e
  | .ok t =>
    .ok [(childName t.typeStr, reinterpret_cast v.dataAddr t),
         ("which", ChildValue.rawInt v.typeId),
         ("address", ChildValue.address v.dataAddr)]

/-- `resolve_type` (source lines 204-212) applied to an already
looked-up tagged type: drop a reference wrapper, then qualifiers.
(The `tag is None` branch concerns untagged primitive types, which the
variant's stored types never are.) -/
def unqualified : GdbType → GdbType
  | .constQ t => unqualified t
  | t => t

def resolve_type (t : GdbType) : GdbType :=
  match t with
  | .reference u => unqualified u
  | t => unqualified t

/-- `FutureStatePrinter.to_string` (source lines 152-154).  No failure
from `get_variant_type` is caught. -/
def fs_to_string (env : GdbEnv) (v : FSValue) : Except PrinterError String :=
  match get_variant_type env v with
  | .error e => .error e
  | .ok t =>
    .ok ("(futures::detail::future_state<...>) type = " ++ (resolve_type t).typeStr)

/-! ### `FutureStateTypeIDPrinter` (source lines 96-114) -/

/-- `FutureStateTypeIDPrinter.to_string` on the raw discriminant. -/
def type_id_to_string (d : Int) : String :=
  if d = 0 then "empty"
  else if d = 1 then "direct_storage"
  else if d = 2 then "shared_storage"
  else if d = 3 then "inline_state"
  else if d = 4 then "shared_state"
  else "invalid type"

/-- Modelled from the spec: `DiscriminantLabelPrinter.toLabel` returns
the entries of the fixed five-element table for `d = 0..4` and
`"invalid type"` for any other integer. -/
def toLabelSpec (d : Int) : String :=
  if 0 ≤ d ∧ d ≤ 4 then
    ["empty", "direct_storage", "shared_storage", "inline_state",
     "shared_state"].getD d.toNat "invalid type"
  else "invalid type"

/-! ### `MaybeEmptyPrinter` (source lines 117-140)

The printer matches `^futures::detail::maybe_empty<(.*),(.*),(.*)>$`.
With all three groups greedy, the backtracking match splits the text
between the literal head and the final `>` at its *last two* commas:
group 1 runs to the second-to-last comma, group 2 to the last comma,
group 3 is the remainder. -/

structure MEValue where
  typeText : String
  valueField : Int
deriving DecidableEq

def mePre : List Char := "futures::detail::maybe_empty<".data

/-- Split at the last comma: `some (before, after)` or `none` when no
comma occurs. -/
def breakAtLastComma (cs : List Char) : Option (List Char × List Char) :=
  match cs.reverse.dropWhile (fun c => !(c == ',')) with
  | _ :: rest => some (rest.reverse, (cs.reverse.takeWhile (fun c => !(c == ','))).reverse)
  | [] => none

/-- The three groups of `MaybeEmptyPrinter.regex` under greedy
backtracking semantics; `none` when the pattern does not match (the
source then hits an `AttributeError` on `m.group`). -/
def maybeEmptyGroups (cs : List Char) : Option (List Char × List Char × List Char) :=
  if mePre.isPrefixOf cs then
    match (cs.drop mePre.length).getLast? with
    | some c =>
      if c = '>' then
        match breakAtLastComma (cs.drop mePre.length).dropLast with
        | some (g12, g3) =>
          match breakAtLastComma g12 with
          | some (g1, g2) => some (g1, g2, g3)
          | none => none
        | none => none
      else none
    | none => none
  else none

/-- `pat` occurs as a contiguous substring of `cs`. -/
def listContains (pat : List Char) : List Char → Bool
  | [] => pat.isPrefixOf []
  | c :: rest => pat.isPrefixOf (c :: rest) || listContains pat rest

/-- `m.group(3).find('true') != -1` -/
def containsTrue (cs : List Char) : Bool := listContains "true".data cs

/-- `MaybeEmptyPrinter.__init__` (source lines 122-128): the stored
wrapped-type text (`group(1)`) and the emptiness flag. -/
def me_fields (v : MEValue) : Option (List Char × Bool) :=
  match maybeEmptyGroups v.typeText.data with
  | some (g1, _, g3) => some (g1, containsTrue g3)
  | none => none

/-- `MaybeEmptyPrinter.to_string` (source lines 130-134). -/
def me_to_string (v : MEValue) : Option String :=
  match me_fields v with
  | some (t, flag) => some (if flag then "empty type: " ++ (⟨t⟩ : String) else ⟨t⟩)
  | none => none

/-- `MaybeEmptyPrinter.children` (source lines 136-140). -/
def me_children (v : MEValue) : Option (List (String × ChildValue)) :=
  match me_fields v with
  | some (t, flag) =>
    some (if flag then [("empty", ChildValue.boolVal true)]
          else [((⟨t⟩ : String), ChildValue.fieldVal v.valueField)])
  | none => none

/-! ### Concrete fixtures for witnesses and counterexamples -/

/-- A `future_state` value whose (resolved) type text is
`futures::detail::future_state<inner>`. -/
def mkFS (inner : String) (d : Int) (a : Nat) : FSValue :=
  ⟨"futures::detail::future_state<" ++ inner ++ ">", d, a⟩

/-- A `maybe_empty` value whose type text is
`futures::detail::maybe_empty<t,i,b>`. -/
def mkME (t i b : String) (x : Int) : MEValue :=
  ⟨"futures::detail::maybe_empty<" ++ t ++ "," ++ i ++ "," ++ b ++ ">", x⟩

def sampleOuter : String := "futures::detail::future_state<R, S>"

/-- A host environment that knows every nested type of `sampleOuter`
(anything named `futures::detail::future_state<R, S>::...`) and nothing
else; in particular the empty name resolves to nothing, as in GDB. -/
def sampleEnv : GdbEnv :=
  ⟨fun n =>
    if (sampleOuter ++ "::").data.isPrefixOf n.data then some (.base n) else none⟩

/-! ## Helper lemmas -/

theorem isPrefixOf_append_self (l t : List Char) : l.isPrefixOf (l ++ t) = true := by
  induction l with
  | nil => simp [List.isPrefixOf]
  | cons c cs ih => simp [List.isPrefixOf, ih]

theorem mkFS_data (inner : String) (d : Int) (a : Nat) :
    (mkFS inner d a).typeText.data = fsPre ++ (inner.data ++ ['>']) := by
  simp [mkFS, fsPre]

theorem regex_fs_mk (s : List Char) :
    regexFutureStateGroup1 (fsPre ++ (s ++ ['>'])) = some s := by
  unfold regexFutureStateGroup1
  rw [if_pos (by rw [isPrefixOf_append_self]), List.drop_left]
  simp

/-! The `while True` loops of `strip_qualifiers` are run on
`length + 1` units of fuel.  The next lemmas show the fuel never runs
out: every iteration removes at least one character, so any fuel above
the input length gives the same result — the fuel-0 branch is
unreachable from `strip_qualifiers`. -/

theorem pyRStrip_length_le (cs : List Char) : (pyRStrip cs).length ≤ cs.length := by
  unfold pyRStrip
  rw [List.length_reverse]
  calc (cs.reverse.dropWhile isPySpace).length
      ≤ cs.reverse.length := (List.dropWhile_sublist _).length_le
    _ = cs.length := List.length_reverse _

theorem pyLStrip_length_le (cs : List Char) : (pyLStrip cs).length ≤ cs.length :=
  (List.dropWhile_sublist _).length_le

theorem trailingQual_length {cs q : List Char} (h : trailingQual cs = some q) :
    1 ≤ q.length ∧ q.length ≤ cs.length := by
  unfold trailingQual at h
  have hs : q.isSuffixOf cs = true := by simpa using List.find?_some h
  have hm : q ∈ qualTokens := List.mem_of_find?_eq_some h
  have hq : q ≠ [] := by
    simp only [qualTokens, List.mem_cons, List.not_mem_nil, or_false] at hm
    rcases hm with rfl | rfl | rfl | rfl <;> decide
  exact ⟨List.length_pos.mpr hq, (List.isSuffixOf_iff_suffix.mp hs).length_le⟩

theorem leadingQual_length {cs q : List Char} (h : leadingQual cs = some q) :
    1 ≤ q.length ∧ q.length ≤ cs.length := by
  unfold leadingQual at h
  have hs : q.isPrefixOf cs = true := by simpa using List.find?_some h
  have hm : q ∈ leadQualTokens := List.mem_of_find?_eq_some h
  have hq : q ≠ [] := by
    simp only [leadQualTokens, List.mem_cons, List.not_mem_nil, or_false] at hm
    rcases hm with rfl | rfl <;> decide
  exact ⟨List.length_pos.mpr hq, (List.isPrefixOf_iff_prefix.mp hs).length_le⟩

theorem stripTrailLoop_fuel_irrelevant :
    ∀ f₁ f₂ cs, cs.length < f₁ → cs.length < f₂ →
      stripTrailLoop f₁ cs = stripTrailLoop f₂ cs := by
  intro f₁
  induction f₁ with
  | zero => omega
  | succ n ih =>
    intro f₂ cs h1 h2
    cases f₂ with
    | zero => omega
    | succ m =>
      cases htq : trailingQual (pyRStrip cs) with
      | none => simp [stripTrailLoop, htq]
      | some q =>
        have hql := trailingQual_length htq
        have hrs := pyRStrip_length_le cs
        have hrem : (removeTrail (pyRStrip cs) q).length
            = (pyRStrip cs).length - q.length := by
          simp [removeTrail]
        simp only [stripTrailLoop, htq]
        rw [ih m (removeTrail (pyRStrip cs) q) (by omega) (by omega)]

theorem stripLeadLoop_fuel_irrelevant :
    ∀ f₁ f₂ cs, cs.length < f₁ → cs.length < f₂ →
      stripLeadLoop f₁ cs = stripLeadLoop f₂ cs := by
  intro f₁
  induction f₁ with
  | zero => omega
  | succ n ih =>
    intro f₂ cs h1 h2
    cases f₂ with
    | zero => omega
    | succ m =>
      cases htq : leadingQual (pyLStrip cs) with
      | none => simp [stripLeadLoop, htq]
      | some q =>
        have hql := leadingQual_length htq
        have hrs := pyLStrip_length_le cs
        have hrem : (removeLead (pyLStrip cs) q).length
            = (pyLStrip cs).length - q.length := by
          simp [removeLead]
        simp only [stripLeadLoop, htq]
        rw [ih m (removeLead (pyLStrip cs) q) (by omega) (by omega)]

theorem resolveConcreteTypeName_mkFS (inner : String) (d : Int) (a : Nat)
    (hd : ¬ d < 0) (h : (split_parameter_pack inner.data).length = 2) :
    resolveConcreteTypeName (mkFS inner d a)
      = .ok (storedTypeName (mkFS inner d a).typeText d) := by
  have hr : regexFutureStateGroup1 (mkFS inner d a).typeText.data = some inner.data := by
    rw [mkFS_data]; exact regex_fs_mk _
  unfold resolveConcreteTypeName
  rw [hr]
  simp [mkFS, hd, h]

/-! ## Claims -/

/-- C1: for every variant type text `V = futures::detail::future_state<inner>`
(with a two-element parameter pack, as the source's unpacking requires)
and every discriminant in `{0,1,2,3,4}`, the resolver composes the
concrete stored-type name as `V + "::" + s` with `s` respectively
`empty_t`, `operation_storage_t`, `shared_storage_t`,
`operation_state_t`, `shared_state_t`; and the bare composition for an
outer text `Outer` with discriminant `3` is `Outer::operation_state_t`. -/
theorem C1_concrete_name_composition (inner : String)
    (h : (split_parameter_pack inner.data).length = 2) (a : Nat) :
    (resolveConcreteTypeName (mkFS inner 0 a)
        = .ok ((mkFS inner 0 a).typeText ++ "::empty_t")
      ∧ resolveConcreteTypeName (mkFS inner 1 a)
        = .ok ((mkFS inner 1 a).typeText ++ "::operation_storage_t")
      ∧ resolveConcreteTypeName (mkFS inner 2 a)
        = .ok ((mkFS inner 2 a).typeText ++ "::shared_storage_t")
      ∧ resolveConcreteTypeName (mkFS inner 3 a)
        = .ok ((mkFS inner 3 a).typeText ++ "::operation_state_t")
      ∧ resolveConcreteTypeName (mkFS inner 4 a)
        = .ok ((mkFS inner 4 a).typeText ++ "::shared_state_t"))
    ∧ storedTypeName "Outer" 3 = "Outer::operation_state_t" := by
  refine ⟨⟨?_, ?_, ?_, ?_, ?_⟩, by decide⟩ <;>
    · rw [resolveConcreteTypeName_mkFS inner _ a (by norm_num) h]
      simp [storedTypeName]

/-- C1 witness at `inner = "R, OpState"`, discriminant 3. -/
theorem C1_witness :
    resolveConcreteTypeName (mkFS "R, OpState" 3 0)
      = .ok ((mkFS "R, OpState" 3 0).typeText ++ "::operation_state_t") :=
  (C1_concrete_name_composition "R, OpState" (by decide) 0).1.2.2.2.1

/-- C2: for every variant value whose concrete type resolves
successfully, `children()` yields exactly three `(name, value)` entries,
in this fixed order: the decoded stored value named by the text of the
concrete type name after its last `::`, then `("which", raw
discriminant)`, then `("address", storage address)`. -/
theorem C2_exactly_three_children (env : GdbEnv) (v : FSValue) (t : GdbType)
    (h : get_variant_type env v = .ok t) :
    fs_children env v
      = .ok [(childName t.typeStr, reinterpret_cast v.dataAddr t),
             ("which", ChildValue.rawInt v.typeId),
             ("address", ChildValue.address v.dataAddr)] := by
  unfold fs_children
  rw [h]

/-- C2 witness: a populated environment and a discriminant-3 value. -/
theorem C2_witness :
    fs_children sampleEnv (mkFS "R, S" 3 100)
      = .ok [("operation_state_t",
              ChildValue.storedView 100
                (.base "futures::detail::future_state<R, S>::operation_state_t")),
             ("which", ChildValue.rawInt 3),
             ("address", ChildValue.address 100)] :=
  (C2_exactly_three_children sampleEnv (mkFS "R, S" 3 100)
      (.base "futures::detail::future_state<R, S>::operation_state_t") rfl).trans rfl

/-- C9: for every variant value with a negative discriminant (the
out-of-line "heap backup" encoding), the assertion rejects the value
first: resolution, `children()` and `to_string()` all fail with the
assertion error, for every host environment alike — no concrete type
name is composed, no lookup is consulted and no reinterpretation
occurs. -/
theorem C9_negative_discriminant_asserts (env : GdbEnv) (v : FSValue)
    (h : v.typeId < 0) :
    resolveConcreteTypeName v = .error (.assertionFailed "Heap backup is not supported")
    ∧ get_variant_type env v = .error (.assertionFailed "Heap backup is not supported")
    ∧ fs_children env v = .error (.assertionFailed "Heap backup is not supported")
    ∧ fs_to_string env v = .error (.assertionFailed "Heap backup is not supported") := by
  have h1 : resolveConcreteTypeName v
      = .error (.assertionFailed "Heap backup is not supported") := by
    unfold resolveConcreteTypeName
    rw [if_pos h]
  have h2 : get_variant_type env v
      = .error (.assertionFailed "Heap backup is not supported") := by
    unfold get_variant_type
    rw [h1]
  exact ⟨h1, h2, by unfold fs_children; rw [h2], by unfold fs_to_string; rw [h2]⟩

/-- C9 witness at discriminant `-1`. -/
theorem C9_witness :
    resolveConcreteTypeName (mkFS "R, S" (-1) 0)
        = .error (.assertionFailed "Heap backup is not supported")
    ∧ get_variant_type sampleEnv (mkFS "R, S" (-1) 0)
        = .error (.assertionFailed "Heap backup is not supported")
    ∧ fs_children sampleEnv (mkFS "R, S" (-1) 0)
        = .error (.assertionFailed "Heap backup is not supported")
    ∧ fs_to_string sampleEnv (mkFS "R, S" (-1) 0)
        = .error (.assertionFailed "Heap backup is not supported") :=
  C9_negative_discriminant_asserts sampleEnv (mkFS "R, S" (-1) 0) (by decide)

/-- C7: for every integer `d`, the discriminant-label printer returns
exactly `empty`, `direct_storage`, `shared_storage`, `inline_state`,
`shared_state` for `d = 0..4` and `invalid type` for every other
integer, negatives included; it is a total function and always produces
text. -/
theorem C7_discriminant_label_table (d : Int) :
    type_id_to_string d = toLabelSpec d := by
  rcases d with n | n
  · rcases n with _ | _ | _ | _ | _ | n
    · decide
    · decide
    · decide
    · decide
    · decide
    · simp only [type_id_to_string, toLabelSpec, Int.ofNat_eq_coe]
      rw [if_neg (by omega), if_neg (by omega), if_neg (by omega),
        if_neg (by omega), if_neg (by omega), if_neg (by omega)]
  · simp only [type_id_to_string, toLabelSpec, Int.negSucc_eq]
    rw [if_neg (by omega), if_neg (by omega), if_neg (by omega),
      if_neg (by omega), if_neg (by omega), if_neg (by omega)]

/-- C5 counterexample: with discriminant `7` the variant printer does
NOT degrade to the textual fallback `"invalid type"`: even in an
environment populated with every nested type of the variant, the
composed name is the empty string, its lookup fails, and the resulting
error escapes `to_string()` and `children()` uncaught (the source has no
handler), so an unhandled failure does reach the host renderer. -/
theorem C5_counterexample :
    fs_to_string sampleEnv (mkFS "R, S" 7 4096)
        = .error (.typeResolution "")
    ∧ fs_children sampleEnv (mkFS "R, S" 7 4096)
        = .error (.typeResolution "")
    ∧ fs_to_string sampleEnv (mkFS "R, S" 7 4096) ≠ .ok "invalid type" := by
  refine ⟨rfl, rfl, ?_⟩
  rw [show fs_to_string sampleEnv (mkFS "R, S" 7 4096)
      = .error (.typeResolution "") from rfl]
  simp

/-- C5 as amended: for a discriminant `d ≥ 5` (such as `7`) no branch of
the name composition fires, so `get_variant_type` asks the host for the
empty type name; in any environment where that lookup fails (as in GDB)
the `TypeResolutionError` propagates uncaught out of both `to_string()`
and `children()` — there is no internal handling and no fallback text in
the variant printer.  Only the separate discriminant-label printer
(`FutureStateTypeIDPrinter`) produces the text `"invalid type"` for
`7`. -/
theorem C5_amended_error_propagates (env : GdbEnv) (inner : String) (a : Nat)
    (d : Int) (hd : 5 ≤ d) (h2 : (split_parameter_pack inner.data).length = 2)
    (hl : env.lookupType "" = none) :
    fs_to_string env (mkFS inner d a) = .error (.typeResolution "")
    ∧ fs_children env (mkFS inner d a) = .error (.typeResolution "")
    ∧ type_id_to_string d = "invalid type" := by
  have h1 : resolveConcreteTypeName (mkFS inner d a) = .ok "" := by
    rw [resolveConcreteTypeName_mkFS inner d a (by omega) h2]
    unfold storedTypeName
    rw [if_neg (by omega), if_neg (by omega), if_neg (by omega),
      if_neg (by omega), if_neg (by omega)]
  have hg : get_variant_type env (mkFS inner d a) = .error (.typeResolution "") := by
    unfold get_variant_type
    rw [h1]
    simp [hl]
  refine ⟨by unfold fs_to_string; rw [hg], by unfold fs_children; rw [hg], ?_⟩
  unfold type_id_to_string
  rw [if_neg (by omega), if_neg (by omega), if_neg (by omega),
    if_neg (by omega), if_neg (by omega)]

/-- C5 witness at discriminant 7 in a populated environment. -/
theorem C5_witness :
    fs_to_string sampleEnv (mkFS "R, S" 7 100) = .error (.typeResolution "")
    ∧ fs_children sampleEnv (mkFS "R, S" 7 100) = .error (.typeResolution "")
    ∧ type_id_to_string 7 = "invalid type" :=
  C5_amended_error_propagates sampleEnv "R, S" 100 7 (by norm_num) (by decide) rfl

theorem split_parameter_packAux_ne_nil (cs : List Char) :
    ∀ u cur, split_parameter_packAux cs u cur ≠ [] := by
  induction cs with
  | nil =>
    intro u cur
    simp [split_parameter_packAux]
  | cons c rest ih =>
    intro u cur
    unfold split_parameter_packAux
    split_ifs with h1 h2 h3
    · exact List.cons_ne_nil _ _
    · exact ih _ _
    · exact ih _ _
    · exact ih _ _

/-- C6 counterexample: on the bracket-unbalanced input `"A<B"` the
splitter does not fail — it returns the one-element result `["A<B"]`.
The embedding is total because the source generator has no failure path:
no exception is raised anywhere in `split_parameter_pack`, so no
`ParseError` exists to be thrown. -/
theorem C6_counterexample :
    split_parameter_pack "A<B".data = ["A<B".data] := by decide

/-- C6 as amended: `split_parameter_pack` never signals an error on any
input, balanced or not — it always returns at least one segment; on
unbalanced input the running counter simply stays nonzero (or goes
negative) and commas under it are not separators, e.g. `">,<"` and
`"A<B,C"` each come back whole. -/
theorem C6_never_fails :
    (∀ cs, split_parameter_pack cs ≠ [])
    ∧ split_parameter_pack ">,<".data = [">,<".data]
    ∧ split_parameter_pack "A<B,C".data = ["A<B,C".data] :=
  ⟨fun cs => split_parameter_packAux_ne_nil cs 0 [], by decide, by decide⟩

theorem noSkipHazard_tail {c : Char} {l : List Char}
    (h : noSkipHazard (c :: l) = true) : noSkipHazard l = true := by
  cases l with
  | nil => rfl
  | cons b r =>
    simp only [noSkipHazard, Bool.and_eq_true] at h
    exact h.2

theorem split_eq_spec_aux :
    ∀ n cs u cur, cs.length ≤ n → noSkipHazard cs = true →
      split_parameter_packAux cs u cur = splitGenericArgsSpecAux cs u cur := by
  intro n
  induction n with
  | zero =>
    intro cs u cur hl _
    have : cs = [] := List.eq_nil_of_length_eq_zero (Nat.le_zero.mp hl)
    subst this
    rfl
  | succ n ih =>
    intro cs u cur hl hh
    cases cs with
    | nil => rfl
    | cons c rest =>
      by_cases h1 : c = ',' ∧ u = 0
      · obtain ⟨hc, hu⟩ := h1
        subst hc
        subst hu
        cases rest with
        | nil => rfl
        | cons x rest2 =>
          have hx : (¬ x = '<' ∧ ¬ x = '>') ∧ ¬ x = ',' := by
            simp only [noSkipHazard, Bool.and_eq_true] at hh
            have h := hh.1
            simpa using h
          show pyStrip cur.reverse :: split_parameter_packAux rest2 0 [x]
              = pyStrip cur.reverse :: splitGenericArgsSpecAux (x :: rest2) 0 []
          congr 1
          rw [splitGenericArgsSpecAux.eq_def]
          simp only []
          rw [if_neg (fun hp => hx.2 hp.1), if_neg hx.1.1, if_neg hx.1.2]
          exact ih rest2 0 [x] (by simp at hl; omega)
            (noSkipHazard_tail (noSkipHazard_tail hh))
      · have hrest : noSkipHazard rest = true := noSkipHazard_tail hh
        have hlen : rest.length ≤ n := by simp at hl; omega
        rw [split_parameter_packAux.eq_def, splitGenericArgsSpecAux.eq_def]
        simp only []
        rw [if_neg h1, if_neg h1]
        split_ifs
        · exact ih rest (u + 1) (c :: cur) hlen hrest
        · exact ih rest (u - 1) (c :: cur) hlen hrest
        · exact ih rest u (c :: cur) hlen hrest

/-- C3 counterexample: the claim fails on `"x,<a,b>"`.  The source
splits at the comma between `a` and `b`, although the bracket counter
over the preceding text `"x,<a"` is 1: the `<` right after the first
separator comma is skipped by the scanner's double index advance, so the
code yields three arguments where depth-0 splitting yields two. -/
theorem C3_counterexample :
    split_parameter_pack "x,<a,b>".data = ["x".data, "<a".data, "b>".data]
    ∧ splitGenericArgsSpec "x,<a,b>".data = ["x".data, "<a,b>".data] :=
  ⟨by decide, by decide⟩

/-- C3 as amended: on every input in which no comma is immediately
followed by `<`, `>` or `,` (all well-formed C++ parameter packs in
particular, since a type cannot begin with those), `split_parameter_pack`
treats a comma as a separator exactly when the running bracket counter
(incremented on `<`, decremented on `>`) is zero and yields each argument
trimmed of surrounding whitespace; in particular
`"A<B,C>,D<E>"` yields exactly `["A<B,C>", "D<E>"]`. -/
theorem C3_depth_zero_split :
    (∀ cs, noSkipHazard cs = true →
      split_parameter_pack cs = splitGenericArgsSpec cs)
    ∧ split_parameter_pack "A<B,C>,D<E>".data = ["A<B,C>".data, "D<E>".data] :=
  ⟨fun cs h => split_eq_spec_aux cs.length cs 0 [] le_rfl h, by decide⟩

/-- C3 witness: the hazard condition holds on `"T1<A,B>, T2"` and the
code splitter agrees with depth-0 splitting there. -/
theorem C3_witness :
    split_parameter_pack "T1<A,B>, T2".data
      = splitGenericArgsSpec "T1<A,B>, T2".data :=
  C3_depth_zero_split.1 "T1<A,B>, T2".data (by decide)

/-- C4: evaluation of the round trip at the spec's own example
`" const int * & "`.  Stripping yields base `"int"` with recorded
qualifiers `["const", "*", "&"]`, but reapplication is NOT a no-op on
`const`: the source's `apply_qualifiers` contains
`elif q == 'const': t = t.const()` — contradicting its own doc string
("const and volatile qualifiers are not applied") — so the rebuilt type
is a reference to pointer to *const* int, not the claimed "reference to
pointer to int" (`volatile` alone is dropped). -/
theorem C4_const_is_reapplied :
    strip_qualifiers " const int * & ".data
      = ("int".data, ["const".data, ['*'], ['&']])
    ∧ apply_qualifiers (.base "int") ["const".data, ['*'], ['&']]
        = .reference (.pointer (.constQ (.base "int")))
    ∧ GdbType.reference (.pointer (.constQ (.base "int")))
        ≠ .reference (.pointer (.base "int")) :=
  ⟨by decide, by decide, by decide⟩

/-- C10: qualifier stripping is purely textual suffix matching with no
token-boundary check: whenever the (right-stripped) text ends in a
qualifier token, that token is removed and recorded, even when it is
part of a longer identifier — `"myconst"` strips to base `"my"` with
`"const"` recorded. -/
theorem C10_textual_suffix_stripping :
    strip_qualifiers "myconst".data = ("my".data, ["const".data])
    ∧ ∀ cs q, trailingQual (pyRStrip cs) = some q →
        q ∈ (strip_qualifiers cs).2 := by
  refine ⟨by decide, ?_⟩
  intro cs q h
  unfold strip_qualifiers
  have hstep : stripTrailLoop (cs.length + 1) cs
      = ((stripTrailLoop cs.length (removeTrail (pyRStrip cs) q)).1,
         q :: (stripTrailLoop cs.length (removeTrail (pyRStrip cs) q)).2) := by
    rw [stripTrailLoop.eq_def]
    simp only [h]
  rw [hstep]
  simp

/-- C10 witness at `"myconst"`. -/
theorem C10_witness :
    "const".data ∈ (strip_qualifiers "myconst".data).2 :=
  C10_textual_suffix_stripping.2 "myconst".data "const".data (by decide)

theorem breakAtLastComma_append (x b : List Char) (hb : ',' ∉ b) :
    breakAtLastComma (x ++ ',' :: b) = some (x, b) := by
  unfold breakAtLastComma
  have hrev : (x ++ ',' :: b).reverse = b.reverse ++ ',' :: x.reverse := by
    rw [List.reverse_append, List.reverse_cons, List.append_assoc]
    rfl
  have hall : ∀ a ∈ b.reverse, (fun c => !(c == ',')) a = true := by
    intro a ha
    rw [List.mem_reverse] at ha
    simp only [Bool.not_eq_true']
    exact beq_eq_false_iff_ne.mpr (fun hc => hb (hc ▸ ha))
  rw [hrev, List.dropWhile_append_of_pos hall, List.takeWhile_append_of_pos hall]
  simp [List.dropWhile, List.takeWhile]

theorem maybeEmptyGroups_concat (t i b : List Char)
    (hi : ',' ∉ i) (hb : ',' ∉ b) :
    maybeEmptyGroups (mePre ++ (((t ++ ',' :: i) ++ ',' :: b) ++ ['>']))
      = some (t, i, b) := by
  unfold maybeEmptyGroups
  rw [if_pos (by rw [isPrefixOf_append_self]), List.drop_left]
  simp only [List.getLast?_concat, List.dropLast_concat]
  rw [if_pos trivial, breakAtLastComma_append _ _ hb]
  show (match breakAtLastComma (t ++ ',' :: i) with
    | some (g1, g2) => some (g1, g2, b)
    | none => none) = some (t, i, b)
  rw [breakAtLastComma_append _ _ hi]

theorem maybeEmptyGroups_mkME (t i b : String) (x : Int)
    (hi : ',' ∉ i.data) (hb : ',' ∉ b.data) :
    maybeEmptyGroups (mkME t i b x).typeText.data
      = some (t.data, i.data, b.data) := by
  have hdata : (mkME t i b x).typeText.data
      = mePre ++ (((t.data ++ ',' :: i.data) ++ ',' :: b.data) ++ ['>']) := by
    simp [mkME, mePre]
  rw [hdata]
  exact maybeEmptyGroups_concat t.data i.data b.data hi hb

/-- C8 counterexample: for the signature
`futures::detail::maybe_empty<A,f<0,1>,true>` the printer's greedy regex
takes `"A,f<0"` as the wrapped type (the text before the second-to-last
comma) while depth-aware parsing of the same argument text yields first
argument `"A"` — the claim's "first of the three generic arguments
obtained by depth-aware parsing" does not describe the code. -/
theorem C8_counterexample :
    me_fields ⟨"futures::detail::maybe_empty<A,f<0,1>,true>", 0⟩
      = some ("A,f<0".data, true)
    ∧ (splitGenericArgsSpec "A,f<0,1>,true".data).head? = some "A".data
    ∧ "A,f<0".data ≠ "A".data :=
  ⟨by decide, by decide, by decide⟩

/-- C8 as amended: the wrapped type name and emptiness flag are the
first and third regex groups, i.e. the segments of the bracketed
argument text delimited by its *last two* commas (this coincides with
depth-aware parsing whenever the second and third arguments contain no
comma, as for `maybe_empty`'s index and boolean arguments); the flag is
true exactly when the third segment contains `"true"`; `toString()`
returns the wrapped name when non-empty and `"empty type: " + name`
when empty; and `children()` yields exactly one pair —
`(wrappedTypeName, storedValue)` when non-empty, `("empty", true)` when
empty. -/
theorem C8_wrapped_type_and_flag (t i b : String) (x : Int)
    (hi : ',' ∉ i.data) (hb : ',' ∉ b.data) :
    me_fields (mkME t i b x) = some (t.data, containsTrue b.data)
    ∧ me_to_string (mkME t i b x)
        = some (if containsTrue b.data then "empty type: " ++ t else t)
    ∧ me_children (mkME t i b x)
        = some (if containsTrue b.data then [("empty", ChildValue.boolVal true)]
                else [(t, ChildValue.fieldVal x)]) := by
  have hf : me_fields (mkME t i b x) = some (t.data, containsTrue b.data) := by
    unfold me_fields
    rw [maybeEmptyGroups_mkME t i b x hi hb]
  refine ⟨hf, ?_, ?_⟩
  · unfold me_to_string
    rw [hf]
  · unfold me_children
    rw [hf]
    rfl

/-- C8 witness: `maybe_empty<Widget,0,false>` and
`maybe_empty<Widget,0,true>`. -/
theorem C8_witness :
    me_to_string (mkME "Widget" "0" "false" 5) = some "Widget"
    ∧ me_children (mkME "Widget" "0" "false" 5)
        = some [("Widget", ChildValue.fieldVal 5)]
    ∧ me_to_string (mkME "Widget" "0" "true" 5) = some "empty type: Widget"
    ∧ me_children (mkME "Widget" "0" "true" 5)
        = some [("empty", ChildValue.boolVal true)] := by
  refine ⟨?_, ?_, ?_, ?_⟩
  · exact ((C8_wrapped_type_and_flag "Widget" "0" "false" 5
      (by decide) (by decide)).2.1).trans (by decide)
  · exact ((C8_wrapped_type_and_flag "Widget" "0" "false" 5
      (by decide) (by decide)).2.2).trans (by decide)
  · exact ((C8_wrapped_type_and_flag "Widget" "0" "true" 5
      (by decide) (by decide)).2.1).trans (by decide)
  · exact ((C8_wrapped_type_and_flag "Widget" "0" "true" 5
      (by decide) (by decide)).2.2).trans (by decide)

end FuturesPrinters
